import Mathlib

/-!
Verification of the nodzilla domain-freshness store (pkg/db/pebble.go) and
its HTTP layer (pkg/api) against the natural-language specification.

The pebble engine is the external storage dependency: the embedding models
its documented interface contract (point get that distinguishes
`ErrNotFound` from I/O errors, idempotent point delete, atomic batch
commit) and translates the repository's own code on top of it. Engine
I/O failures are modelled by explicit fault parameters: `getFault` for
point lookups and a success flag for each synchronous write or batch
commit, since the Go code observes failures only through returned errors.
JSON encoding of stored values is modelled as the identity because
`json.Marshal` on the two-field `Value` struct never fails and
`json.Unmarshal` inverts it; the store therefore holds `Value`s
structurally.
-/

namespace Nodzilla

/-- Go `time.Time`, reduced to what the code observes: wall-clock seconds
since the Unix epoch and a nanosecond part. Times built by parsing RFC3339
have `0 ≤ nsec < 10^9`; the code reads a time only through `Unix()` and
rebuilds times only through `time.Unix(sec, 0)`. -/
structure Time where
  sec : Int
  nsec : Int
deriving DecidableEq, Repr

/-- Go `t.Unix()`: seconds since the epoch; the nanosecond part is dropped. -/
def Time.unix (t : Time) : Int := t.sec

/-- Go `time.Unix(sec, nsec)` as the code calls it (always with `nsec = 0`). -/
def timeUnix (sec nsec : Int) : Time := ⟨sec, nsec⟩

/-- Truncation of a wall-clock time to whole seconds: the spec's "second
granularity" of the store's time resolution. -/
def Time.truncToSecond (t : Time) : Time := ⟨t.sec, 0⟩

/-- `db.Entry` (pkg/db): a domain name and its caller-supplied registration
date. -/
structure Entry where
  Domain : String
  RegistrationDate : Time
deriving DecidableEq, Repr

/-- `db.Value` (pkg/db/pebble.go): the record stored under the domain key —
the caller's registration date as epoch seconds plus the insertion
wall-clock time. -/
structure Value where
  FirstObserved : Int
  TimeAdded : Int
deriving DecidableEq, Repr

/-- An engine-level I/O error: any pebble error other than `ErrNotFound`. -/
structure EngineError where
  msg : String
deriving DecidableEq, Repr

/-- The pebble key/value contents, as an association list in which the
first binding for a key is the visible one. -/
abbrev Store := List (String × Value)

/-- Point lookup in the key/value contents. -/
def Store.get? : Store → String → Option Value
  | [], _ => none
  | (k, v) :: rest, d => if k = d then some v else Store.get? rest d

/-- Point upsert: replaces the visible binding of the key, or appends one. -/
def Store.set : Store → String → Value → Store
  | [], k, v => [(k, v)]
  | (k', v') :: rest, k, v =>
      if k' = k then (k, v) :: rest else (k', v') :: Store.set rest k v

/-- Point delete: removes every binding of the key; deleting an absent key
leaves the contents unchanged (pebble's delete is a tombstone write and is
never an error merely because the key is absent). -/
def Store.del : Store → String → Store
  | [], _ => []
  | (k', v') :: rest, k =>
      if k' = k then Store.del rest k else (k', v') :: Store.del rest k

/-- `db.PebbleDB`, restricted to what the claims observe: the key/value
contents plus a fault model for point lookups. `getFault d = some e` means
`DB.Get` on key `d` fails with engine error `e` — as opposed to returning
`pebble.ErrNotFound`, which signals absence of the key and is not a fault. -/
structure PebbleDB where
  store : Store
  getFault : String → Option EngineError

/-- Result of `db.DB.Get`: the stored value, `pebble.ErrNotFound`, or an
engine I/O error. -/
inductive GetResult where
  | found (v : Value)
  | notFound
  | ioErr (e : EngineError)

/-- The engine's point lookup underneath `Query`. -/
def PebbleDB.dbGet (db : PebbleDB) (domain : String) : GetResult :=
  match db.getFault domain with
  | some e => .ioErr e
  | none =>
      match db.store.get? domain with
      | some v => .found v
      | none => .notFound

/-- `PebbleDB.Query` (pkg/db/pebble.go): on `ErrNotFound` it returns the
epoch-zero sentinel entry with no error; any other engine error is
propagated; otherwise the stored `FirstObserved` seconds are turned back
into a time with `time.Unix(v, 0)`. -/
def PebbleDB.Query (db : PebbleDB) (domain : String) : Except EngineError Entry :=
  match db.dbGet domain with
  | .notFound => .ok { Domain := domain, RegistrationDate := timeUnix 0 0 }
  | .ioErr e => .error e
  | .found v => .ok { Domain := domain, RegistrationDate := timeUnix v.FirstObserved 0 }

/-- The entry `Query` returns when the engine lookup on the domain does not
fault: the stored record's date, or the epoch-zero sentinel when absent. -/
def PebbleDB.queryEntry (db : PebbleDB) (domain : String) : Entry :=
  match db.store.get? domain with
  | some v => { Domain := domain, RegistrationDate := timeUnix v.FirstObserved 0 }
  | none => { Domain := domain, RegistrationDate := timeUnix 0 0 }

/-- `PebbleDB.Add` (pkg/db/pebble.go): stores
`{FirstObserved := entry.RegistrationDate.Unix(), TimeAdded := now}` under
the domain key with a synchronous write. `now` is the `time.Now().Unix()`
observed during the call; `writeOk` models whether the engine's `Set`
succeeds (an engine I/O failure, unrelated to the key's prior presence). -/
def PebbleDB.Add (db : PebbleDB) (entry : Entry) (now : Int) (writeOk : Bool) :
    PebbleDB × Option EngineError :=
  if writeOk then
    ({ db with store := db.store.set entry.Domain ⟨entry.RegistrationDate.unix, now⟩ }, none)
  else
    (db, some ⟨"set failed"⟩)

/-- One operation recorded in a pebble write batch. -/
inductive BatchOp where
  | set (k : String) (v : Value)
  | del (k : String)
deriving DecidableEq, Repr

/-- Effect of one batch operation on the key/value contents. -/
def Store.applyOp (s : Store) : BatchOp → Store
  | .set k v => s.set k v
  | .del k => s.del k

/-- Effect of a whole batch, applied in batch order. -/
def Store.applyBatch (s : Store) (ops : List BatchOp) : Store :=
  ops.foldl Store.applyOp s

/-- `batch.Commit(pebble.Sync)`: pebble commits a write batch atomically —
either the whole batch is applied durably or the commit fails with an
engine error and the contents are untouched. `commitOk` models which of
the two happens. -/
def PebbleDB.commit (db : PebbleDB) (ops : List BatchOp) (commitOk : Bool) :
    PebbleDB × Option EngineError :=
  if commitOk then
    ({ db with store := db.store.applyBatch ops }, none)
  else
    (db, some ⟨"commit failed"⟩)

/-- The batch built by the loop of `AddMany`: one `Set` per entry, in input
order, pairing each entry with the `time.Now().Unix()` observed for it. -/
def addManyOps (entries : List (Entry × Int)) : List BatchOp :=
  entries.map fun p => .set p.1.Domain ⟨p.1.RegistrationDate.unix, p.2⟩

/-- `PebbleDB.AddMany` (pkg/db/pebble.go): builds one batch of `Set`
operations and commits it once. -/
def PebbleDB.AddMany (db : PebbleDB) (entries : List (Entry × Int)) (commitOk : Bool) :
    PebbleDB × Option EngineError :=
  db.commit (addManyOps entries) commitOk

/-- `PebbleDB.Delete` (pkg/db/pebble.go): one synchronous point delete.
`writeOk` models whether the engine write succeeds; deleting an absent key
is not an engine error. -/
def PebbleDB.Delete (db : PebbleDB) (domain : String) (writeOk : Bool) :
    PebbleDB × Option EngineError :=
  if writeOk then
    ({ db with store := db.store.del domain }, none)
  else
    (db, some ⟨"delete failed"⟩)

/-- `PebbleDB.DeleteMany` (pkg/db/pebble.go): one batch of `Delete`
operations, committed once. -/
def PebbleDB.DeleteMany (db : PebbleDB) (domains : List String) (commitOk : Bool) :
    PebbleDB × Option EngineError :=
  db.commit (domains.map .del) commitOk

/-- `PebbleDB.QueryMany` (pkg/db/pebble.go): one `Query` per input domain
in input order, appending each entry to the output; the first per-domain
error aborts the call and is returned with no result sequence (Go returns
`nil, err`). -/
def PebbleDB.QueryMany (db : PebbleDB) : List String → Except EngineError (List Entry)
  | [] => .ok []
  | d :: rest =>
      match db.Query d with
      | .error e => .error e
      | .ok entry =>
          match db.QueryMany rest with
          | .error e => .error e
          | .ok entries => .ok (entry :: entries)

/-- The record the batch of an `AddMany` call leaves for a given domain:
the last occurrence of the domain in the batch wins; `none` when the
domain does not occur in the batch. -/
def lastBatchValue : List (Entry × Int) → String → Option Value
  | [], _ => none
  | p :: rest, d =>
      match lastBatchValue rest d with
      | some v => some v
      | none =>
          if p.1.Domain = d then some ⟨p.1.RegistrationDate.unix, p.2⟩ else none

/-- Go `strings.HasPrefix s pre`. On UTF-8 strings the byte-wise test Go
performs coincides with this character-wise prefix test. -/
def hasPre (s pre : String) : Bool := pre.data.isPrefixOf s.data

/-- Authentication-related fields of `api.Config` (pkg/api). The listen
address, TLS, logger and rate-limit fields are omitted: they do not enter
the middleware decision modelled here. Go's `map[string]string` credential
maps become association lists; the BasicAuth loop only ever tests whether
the supplied pair equals some stored pair, so the map's iteration order is
irrelevant. -/
structure Config where
  BasePath : String
  BasePathAdmin : String
  AuthMethodAPI : String
  AuthUsersAPI : List (String × String)
  AuthMethodAdmin : String
  AuthUsersAdmin : List (String × String)

/-- The credential loop of the BasicAuth validator: Go ranges over the
username→password map and accepts when both `subtle.ConstantTimeCompare`
calls succeed, i.e. exactly when the supplied pair equals a stored pair. -/
def credsMatch (users : List (String × String)) (username password : String) : Bool :=
  users.any fun up => username == up.1 && password == up.2

/-- The BasicAuth validator closure installed by `addMiddlewares`
(pkg/api): the admin base path is tested first; otherwise a path matching
the API base path, or the empty path, is checked against the API realm;
any other path falls through to the final `return false, nil`. -/
def basicAuthValidator (c : Config) (username password path : String) : Bool :=
  if hasPre path c.BasePathAdmin then
    if c.AuthMethodAdmin == "none" then true
    else credsMatch c.AuthUsersAdmin username password
  else if hasPre path c.BasePath || path == "" then
    if c.AuthMethodAPI == "none" then true
    else credsMatch c.AuthUsersAPI username password
  else
    false

/-- Condition under which `addMiddlewares` installs the BasicAuth
middleware at all. -/
def authInstalled (c : Config) : Bool :=
  c.AuthMethodAPI != "none" || c.AuthMethodAdmin != "none"

/-- Echo's BasicAuth middleware rejects the request with 401 exactly when
the validator returns false; otherwise the request passes through
(`none`). -/
def authReject? (c : Config) (username password path : String) : Option Nat :=
  if basicAuthValidator c username password path then none else some 401

/-- Per-realm check described by the spec (§4.3 steps 2–3): method `none`
allows unconditionally, otherwise the realm's credential mapping decides. -/
def realmCheck (method : String) (users : List (String × String))
    (username password : String) : Bool :=
  if method == "none" then true else credsMatch users username password

/-- Modelled from the spec: claim C5's realm-selection rule, under which
every path starting with the admin base path is governed by the admin
realm and every other path (including the empty path) is governed by the
query realm. To be compared with `basicAuthValidator`, the validator the
code installs. -/
def specRealmValidator (c : Config) (username password path : String) : Bool :=
  if hasPre path c.BasePathAdmin then
    realmCheck c.AuthMethodAdmin c.AuthUsersAdmin username password
  else
    realmCheck c.AuthMethodAPI c.AuthUsersAPI username password

namespace Api

/-- Handler `query` (pkg/api): status code of the response. A query error
yields 500; an entry with an empty domain yields 404 ("domain not
found"); otherwise 200 with the entry. -/
def queryStatus (db : PebbleDB) (domain : String) : Nat :=
  match db.Query domain with
  | .error _ => 500
  | .ok entry => if entry.Domain = "" then 404 else 200

/-- Handler `deleteDomain` (pkg/api): status code of the response. A
delete error yields 404 ("domain not found"); success yields 200. -/
def deleteDomainStatus (db : PebbleDB) (domain : String) (writeOk : Bool) : Nat :=
  match (db.Delete domain writeOk).2 with
  | some _ => 404
  | none => 200

end Api

/-- A freshly opened store with no contents and a healthy engine. -/
def emptyDB : PebbleDB := { store := [], getFault := fun _ => none }

/-- A store with one record and an engine that faults on one key. -/
def faultyDB : PebbleDB :=
  { store := [("seen.example", ⟨1704067200, 1704070000⟩)],
    getFault := fun d => if d = "broken.example" then some ⟨"io"⟩ else none }

/-- A concrete batch for exercising the batch theorems. -/
def demoBatch : List (Entry × Int) :=
  [(⟨"a.example", ⟨100, 5⟩⟩, 7), (⟨"b.example", ⟨200, 0⟩⟩, 9)]

/-- A concrete configuration exercising the realm-selection rule: API realm
open, admin realm credential-checked. -/
def c5Config : Config :=
  { BasePath := "/api", BasePathAdmin := "/admin",
    AuthMethodAPI := "none", AuthUsersAPI := [],
    AuthMethodAdmin := "plain", AuthUsersAdmin := [("username1", "password1")] }

/-- A concrete configuration with both realms credential-checked and
disjoint credential mappings. -/
def c6Config : Config :=
  { BasePath := "/", BasePathAdmin := "/admin",
    AuthMethodAPI := "plain", AuthUsersAPI := [("queryuser", "querypass")],
    AuthMethodAdmin := "plain", AuthUsersAdmin := [("adminuser", "adminpass")] }

theorem Store.get?_set_self (s : Store) (k : String) (v : Value) :
    (s.set k v).get? k = some v := by
  induction s with
  | nil => simp [Store.set, Store.get?]
  | cons hd tl ih =>
      obtain ⟨k', v'⟩ := hd
      by_cases h : k' = k
      · simp [Store.set, h, Store.get?]
      · simp [Store.set, h, Store.get?, ih]

theorem Store.get?_set_of_ne (s : Store) (k d : String) (v : Value) (hne : k ≠ d) :
    (s.set k v).get? d = s.get? d := by
  induction s with
  | nil => simp [Store.set, Store.get?, hne]
  | cons hd tl ih =>
      obtain ⟨k', v'⟩ := hd
      by_cases h : k' = k
      · subst h
        simp [Store.set, Store.get?, hne]
      · by_cases h' : k' = d
        · have hdk : ¬d = k := fun hh => hne hh.symm
          simp [Store.set, h, Store.get?, h', hdk]
        · simp [Store.set, h, Store.get?, h', ih]

theorem Store.get?_del_self (s : Store) (k : String) :
    (s.del k).get? k = none := by
  induction s with
  | nil => simp [Store.del, Store.get?]
  | cons hd tl ih =>
      obtain ⟨k', v'⟩ := hd
      by_cases h : k' = k
      · simp [Store.del, h, ih]
      · simp [Store.del, h, Store.get?, ih]

theorem Store.get?_del_of_ne (s : Store) (k d : String) (hne : k ≠ d) :
    (s.del k).get? d = s.get? d := by
  induction s with
  | nil => simp [Store.del, Store.get?]
  | cons hd tl ih =>
      obtain ⟨k', v'⟩ := hd
      by_cases h : k' = k
      · have h' : ¬k' = d := fun hh => hne (h.symm.trans hh)
        simp [Store.del, h, Store.get?, h', hne, ih]
      · simp [Store.del, h, Store.get?, ih]

theorem PebbleDB.Query_of_no_fault (db : PebbleDB) (domain : String)
    (hfault : db.getFault domain = none) :
    db.Query domain = .ok (db.queryEntry domain) := by
  unfold PebbleDB.Query PebbleDB.dbGet PebbleDB.queryEntry
  rw [hfault]
  cases db.store.get? domain <;> rfl

theorem PebbleDB.Query_of_fault (db : PebbleDB) (domain : String) (e : EngineError)
    (hfault : db.getFault domain = some e) :
    db.Query domain = .error e := by
  unfold PebbleDB.Query PebbleDB.dbGet
  rw [hfault]

theorem PebbleDB.Query_domain_eq (db : PebbleDB) (domain : String) (entry : Entry)
    (h : db.Query domain = .ok entry) : entry.Domain = domain := by
  unfold PebbleDB.Query at h
  cases hres : db.dbGet domain <;> rw [hres] at h <;> cases h <;> rfl

/-- C1: for every domain absent from the store (in particular every domain
never inserted), a faultless engine lookup makes Query succeed with an
entry carrying the queried domain and the Unix-epoch sentinel registration
date; absence is never reported as an error. -/
theorem C1_query_absent_sentinel (db : PebbleDB) (domain : String)
    (habsent : db.store.get? domain = none)
    (hfault : db.getFault domain = none) :
    db.Query domain = .ok { Domain := domain, RegistrationDate := timeUnix 0 0 } := by
  rw [db.Query_of_no_fault domain hfault]
  unfold PebbleDB.queryEntry
  rw [habsent]

theorem C1_query_absent_sentinel_witness :
    emptyDB.store.get? "never-seen.example" = none ∧
    emptyDB.Query "never-seen.example" =
      .ok { Domain := "never-seen.example", RegistrationDate := timeUnix 0 0 } :=
  ⟨rfl, C1_query_absent_sentinel emptyDB "never-seen.example" rfl rfl⟩

/-- C2: adding an entry and querying its domain (with a faultless engine)
returns the original registration date truncated to whole seconds, the
store's second granularity. -/
theorem C2_add_query_roundtrip (db : PebbleDB) (entry : Entry) (now : Int)
    (hfault : db.getFault entry.Domain = none) :
    ((db.Add entry now true).1).Query entry.Domain =
      .ok { Domain := entry.Domain,
            RegistrationDate := entry.RegistrationDate.truncToSecond } := by
  have hq := PebbleDB.Query_of_no_fault
    { db with store := db.store.set entry.Domain ⟨entry.RegistrationDate.unix, now⟩ }
    entry.Domain hfault
  rw [show (db.Add entry now true).1 =
      { db with store := db.store.set entry.Domain ⟨entry.RegistrationDate.unix, now⟩ } from rfl,
    hq]
  unfold PebbleDB.queryEntry
  rw [Store.get?_set_self]
  exact rfl

theorem C2_add_query_roundtrip_witness :
    ((emptyDB.Add ⟨"evil.example", ⟨1704067200, 314159265⟩⟩ 1704070000 true).1).Query
        "evil.example" =
      .ok { Domain := "evil.example", RegistrationDate := ⟨1704067200, 0⟩ } :=
  C2_add_query_roundtrip emptyDB ⟨"evil.example", ⟨1704067200, 314159265⟩⟩ 1704070000 rfl

theorem Store.get?_applyBatch_addManyOps (entries : List (Entry × Int)) (s : Store)
    (d : String) :
    (s.applyBatch (addManyOps entries)).get? d =
      match lastBatchValue entries d with
      | some v => some v
      | none => s.get? d := by
  induction entries generalizing s with
  | nil => rfl
  | cons p rest ih =>
      have h1 : s.applyBatch (addManyOps (p :: rest)) =
          (s.set p.1.Domain ⟨p.1.RegistrationDate.unix, p.2⟩).applyBatch
            (addManyOps rest) := rfl
      rw [h1, ih]
      cases hl : lastBatchValue rest d with
      | some v => simp [lastBatchValue, hl]
      | none =>
          by_cases hd : p.1.Domain = d
          · subst hd
            simp [lastBatchValue, hl, Store.get?_set_self]
          · simp [lastBatchValue, hl, hd, Store.get?_set_of_ne _ _ _ _ hd]

theorem Store.get?_applyBatch_delOps (domains : List String) (s : Store) (d : String) :
    (s.applyBatch (domains.map BatchOp.del)).get? d =
      if d ∈ domains then none else s.get? d := by
  induction domains generalizing s with
  | nil => simp [Store.applyBatch]
  | cons k rest ih =>
      have h1 : s.applyBatch ((k :: rest).map BatchOp.del) =
          (s.del k).applyBatch (rest.map BatchOp.del) := rfl
      rw [h1, ih]
      by_cases hm : d ∈ rest
      · simp [hm]
      · by_cases hk : k = d
        · subst hk
          simp [hm, Store.get?_del_self]
        · have hdk : ¬d = k := fun hh => hk hh.symm
          simp [hm, hdk, Store.get?_del_of_ne _ _ _ hk]

theorem lastBatchValue_eq_none (entries : List (Entry × Int)) (d : String)
    (h : d ∉ entries.map fun q => q.1.Domain) :
    lastBatchValue entries d = none := by
  induction entries with
  | nil => rfl
  | cons p rest ih =>
      simp only [List.map_cons, List.mem_cons] at h
      push_neg at h
      have hnd : ¬p.1.Domain = d := fun hh => h.1 hh.symm
      rw [lastBatchValue, ih h.2]
      simp [hnd]

theorem lastBatchValue_of_mem (entries : List (Entry × Int)) (p : Entry × Int)
    (hp : p ∈ entries) (hnodup : (entries.map fun q => q.1.Domain).Nodup) :
    lastBatchValue entries p.1.Domain = some ⟨p.1.RegistrationDate.unix, p.2⟩ := by
  induction entries with
  | nil => cases hp
  | cons q rest ih =>
      simp only [List.map_cons, List.nodup_cons] at hnodup
      rcases List.mem_cons.mp hp with heq | hmem
      · subst heq
        rw [lastBatchValue, lastBatchValue_eq_none rest _ hnodup.1]
        simp
      · rw [lastBatchValue, ih hmem hnodup.2]

/-- C3: a batch is applied atomically. When the commit of AddMany reports
success every entry of a duplicate-free batch is visible to subsequent
queries with its truncated registration date; when the commit reports an
error the store state is unchanged and nothing of the batch is visible.
DeleteMany behaves the same way: on success every domain of the batch is
absent, on error the state is unchanged. -/
theorem C3_batch_atomicity (db : PebbleDB) (entries : List (Entry × Int))
    (domains : List String)
    (hnodup : (entries.map fun p => p.1.Domain).Nodup) :
    ((db.AddMany entries true).2 = none ∧
      ∀ p ∈ entries,
        ((db.AddMany entries true).1).queryEntry p.1.Domain =
          { Domain := p.1.Domain,
            RegistrationDate := p.1.RegistrationDate.truncToSecond }) ∧
    ((db.AddMany entries false).2 = some ⟨"commit failed"⟩ ∧
      (db.AddMany entries false).1 = db) ∧
    ((db.DeleteMany domains true).2 = none ∧
      ∀ d ∈ domains, ((db.DeleteMany domains true).1).store.get? d = none) ∧
    ((db.DeleteMany domains false).2 = some ⟨"commit failed"⟩ ∧
      (db.DeleteMany domains false).1 = db) := by
  refine ⟨⟨rfl, ?_⟩, ⟨rfl, rfl⟩, ⟨rfl, ?_⟩, ⟨rfl, rfl⟩⟩
  · intro p hp
    have hget : ((db.AddMany entries true).1).store.get? p.1.Domain =
        some ⟨p.1.RegistrationDate.unix, p.2⟩ := by
      have hb := Store.get?_applyBatch_addManyOps entries db.store p.1.Domain
      rw [lastBatchValue_of_mem entries p hp hnodup] at hb
      exact hb
    unfold PebbleDB.queryEntry
    rw [hget]
    exact rfl
  · intro d hd
    have hb := Store.get?_applyBatch_delOps domains db.store d
    rw [if_pos hd] at hb
    exact hb

theorem C3_batch_atomicity_witness :
    ((emptyDB.AddMany demoBatch true).1).queryEntry "a.example" =
      { Domain := "a.example", RegistrationDate := ⟨100, 0⟩ } ∧
    (emptyDB.AddMany demoBatch false).1 = emptyDB ∧
    ((emptyDB.DeleteMany ["a.example"] true).1).store.get? "a.example" = none :=
  ⟨(C3_batch_atomicity emptyDB demoBatch ["a.example"] (by decide)).1.2
      (⟨"a.example", ⟨100, 5⟩⟩, 7) (by decide),
   (C3_batch_atomicity emptyDB demoBatch ["a.example"] (by decide)).2.1.2,
   (C3_batch_atomicity emptyDB demoBatch ["a.example"] (by decide)).2.2.1.2
      "a.example" (by decide)⟩

/-- C9: insertion is last-write-wins. Add stores both fields of the record
from the current call's values regardless of what was previously stored
under the domain, and after an AddMany commit the record visible for a
domain is the one from the last batch occurrence of that domain, falling
back to the prior store contents when the batch never touches it. -/
theorem C9_last_write_wins (db : PebbleDB) (entry : Entry) (now : Int)
    (entries : List (Entry × Int)) (d : String) :
    ((db.Add entry now true).1).store.get? entry.Domain =
      some ⟨entry.RegistrationDate.unix, now⟩ ∧
    ((db.AddMany entries true).1).store.get? d =
      (match lastBatchValue entries d with
       | some v => some v
       | none => db.store.get? d) :=
  ⟨Store.get?_set_self db.store entry.Domain _,
   Store.get?_applyBatch_addManyOps entries db.store d⟩

/-- C4: QueryMany performs one Query per input domain in input order — on a
faultless engine it returns exactly the per-domain query results as a
sequence of the same length and order as the input — and when the engine
faults on some queried domain, the first faulting domain's error becomes
the result of the whole call, with no partial result sequence. -/
theorem C4_querymany_order_and_errors (db : PebbleDB) (domains : List String) :
    ((∀ d ∈ domains, db.getFault d = none) →
      db.QueryMany domains = .ok (domains.map db.queryEntry)) ∧
    (∀ good bad rest e, domains = good ++ bad :: rest →
      (∀ d ∈ good, db.getFault d = none) →
      db.getFault bad = some e →
      db.QueryMany domains = .error e) := by
  constructor
  · induction domains with
    | nil => intro _; rfl
    | cons d rest ih =>
        intro hok
        have hd := hok d (List.mem_cons_self d rest)
        have hrest : ∀ x ∈ rest, db.getFault x = none :=
          fun x hx => hok x (List.mem_cons_of_mem d hx)
        simp only [PebbleDB.QueryMany, db.Query_of_no_fault d hd, ih hrest,
          List.map_cons]
  · intro good bad rest e hsplit hgood hbad
    subst hsplit
    revert hgood
    induction good with
    | nil =>
        intro _
        simp only [List.nil_append, PebbleDB.QueryMany,
          db.Query_of_fault bad e hbad]
    | cons g good' ih =>
        intro hgood
        have hg := hgood g (List.mem_cons_self g good')
        have hgood' : ∀ x ∈ good', db.getFault x = none :=
          fun x hx => hgood x (List.mem_cons_of_mem g hx)
        simp only [List.cons_append, PebbleDB.QueryMany,
          db.Query_of_no_fault g hg, List.append_eq, ih hgood']

theorem C4_querymany_order_and_errors_witness :
    faultyDB.QueryMany ["seen.example", "nope.example"] =
      .ok [{ Domain := "seen.example", RegistrationDate := ⟨1704067200, 0⟩ },
           { Domain := "nope.example", RegistrationDate := ⟨0, 0⟩ }] ∧
    faultyDB.QueryMany ["seen.example", "broken.example", "x.example"] =
      .error ⟨"io"⟩ :=
  ⟨(C4_querymany_order_and_errors faultyDB ["seen.example", "nope.example"]).1
      (by decide),
   (C4_querymany_order_and_errors faultyDB
        ["seen.example", "broken.example", "x.example"]).2
      ["seen.example"] "broken.example" ["x.example"] ⟨"io"⟩ rfl (by decide)
      (by decide)⟩

/-- C7: for a non-empty queried domain the single-domain query handler
never answers 404 — Query always carries the queried domain in its entry,
so the handler's "domain not found" branch is unreachable and the response
is 200 or 500. -/
theorem C7_query_no_404 (db : PebbleDB) (domain : String) (hne : domain ≠ "") :
    Api.queryStatus db domain ≠ 404 ∧
    (Api.queryStatus db domain = 200 ∨ Api.queryStatus db domain = 500) := by
  have hstat : Api.queryStatus db domain = 200 ∨ Api.queryStatus db domain = 500 := by
    cases hf : db.getFault domain with
    | some e =>
        right
        simp [Api.queryStatus, db.Query_of_fault domain e hf]
    | none =>
        left
        have hde : (db.queryEntry domain).Domain = domain := by
          unfold PebbleDB.queryEntry
          cases db.store.get? domain <;> rfl
        simp [Api.queryStatus, db.Query_of_no_fault domain hf, hde, hne]
  refine ⟨?_, hstat⟩
  rcases hstat with h | h <;> rw [h] <;> decide

theorem C7_query_no_404_witness :
    Api.queryStatus emptyDB "www.newdomain.com" ≠ 404 ∧
    (Api.queryStatus emptyDB "www.newdomain.com" = 200 ∨
      Api.queryStatus emptyDB "www.newdomain.com" = 500) :=
  C7_query_no_404 emptyDB "www.newdomain.com" (by decide)

/-- C8 counterexample: deleting a domain that is absent from the store is
not an engine error (pebble's point delete writes a tombstone and succeeds
whether or not the key exists, and the spec itself calls Delete
idempotent), so the handler answers 200 on an absent domain — the claim
places this case in the 404 branch. -/
theorem C8_counterexample_absent_delete_200 :
    emptyDB.store.get? "absent.example" = none ∧
    Api.deleteDomainStatus emptyDB "absent.example" true = 200 :=
  ⟨rfl, rfl⟩

/-- C8 amended: the single-domain delete endpoint returns 200 exactly when
the store's Delete call succeeds and 404 exactly when it returns an engine
error; deleting an absent domain succeeds (idempotent delete) and so falls
in the 200 case, not the 404 case. -/
theorem C8_amended_delete_status (db : PebbleDB) (domain : String) (writeOk : Bool) :
    (Api.deleteDomainStatus db domain writeOk = 200 ↔
      (db.Delete domain writeOk).2 = none) ∧
    (Api.deleteDomainStatus db domain writeOk = 404 ↔
      (db.Delete domain writeOk).2 ≠ none) ∧
    (db.store.get? domain = none → Api.deleteDomainStatus db domain true = 200) := by
  cases writeOk <;> simp [Api.deleteDomainStatus, PebbleDB.Delete]

theorem C8_amended_delete_status_witness :
    Api.deleteDomainStatus emptyDB "gone.example" false = 404 ∧
    Api.deleteDomainStatus emptyDB "gone.example" true = 200 :=
  ⟨(C8_amended_delete_status emptyDB "gone.example" false).2.1.mpr (by decide),
   (C8_amended_delete_status emptyDB "gone.example" true).2.2 rfl⟩

/-- C10: adding a domain with the epoch-zero registration date and then
querying it yields exactly the same result as querying a domain absent
from the store — a legitimately stored epoch registration date cannot be
told apart from the not-found sentinel at the Query interface. -/
theorem C10_epoch_sentinel_collision (db db2 : PebbleDB) (domain : String) (now : Int)
    (hfault : db.getFault domain = none)
    (habsent : db2.store.get? domain = none)
    (hfault2 : db2.getFault domain = none) :
    ((db.Add { Domain := domain, RegistrationDate := timeUnix 0 0 } now true).1).Query
        domain = db2.Query domain ∧
    ((db.Add { Domain := domain, RegistrationDate := timeUnix 0 0 } now true).1).Query
        domain = .ok { Domain := domain, RegistrationDate := timeUnix 0 0 } := by
  have h1 : ((db.Add { Domain := domain, RegistrationDate := timeUnix 0 0 } now
      true).1).Query domain =
      .ok { Domain := domain, RegistrationDate := timeUnix 0 0 } := by
    rw [show (db.Add { Domain := domain, RegistrationDate := timeUnix 0 0 } now true).1 =
        { db with store := db.store.set domain ⟨0, now⟩ } from rfl,
      PebbleDB.Query_of_no_fault { db with store := db.store.set domain ⟨0, now⟩ }
        domain hfault]
    unfold PebbleDB.queryEntry
    rw [Store.get?_set_self]
  have h2 : db2.Query domain = .ok { Domain := domain, RegistrationDate := timeUnix 0 0 } := by
    rw [db2.Query_of_no_fault domain hfault2]
    unfold PebbleDB.queryEntry
    rw [habsent]
  exact ⟨h1.trans h2.symm, h1⟩

theorem C10_epoch_sentinel_collision_witness :
    ((emptyDB.Add { Domain := "fresh.example", RegistrationDate := ⟨0, 0⟩ }
        1704070000 true).1).Query "fresh.example" =
      emptyDB.Query "fresh.example" :=
  (C10_epoch_sentinel_collision emptyDB emptyDB "fresh.example" 1704070000
    rfl rfl rfl).1

/-- C5 counterexample: with the middleware installed (the admin realm is
credential-checked), the API realm set to `none` and base paths `/api` and
`/admin`, the request path `/other` matches neither base: the claim's
realm-selection rule puts it under the query realm, whose method `none`
allows the request, but the validator the code installs rejects it. -/
theorem C5_counterexample_unmatched_path :
    authInstalled c5Config = true ∧
    specRealmValidator c5Config "u" "p" "/other" = true ∧
    basicAuthValidator c5Config "u" "p" "/other" = false :=
  ⟨by decide, by decide, by decide⟩

/-- C5 amended: realm selection is purely lexical on the path with the
admin base tested first — every path starting with the admin base path is
checked against the admin realm's method and credentials; every other path
that starts with the query base path or is empty is checked against the
query realm's method and credentials; a non-empty path matching neither
base is rejected outright instead of being checked against the query
realm. -/
theorem C5_amended_realm_selection (c : Config) (username password path : String)
    (_hinst : authInstalled c = true) :
    (hasPre path c.BasePathAdmin = true →
      basicAuthValidator c username password path =
        realmCheck c.AuthMethodAdmin c.AuthUsersAdmin username password) ∧
    (hasPre path c.BasePathAdmin = false →
      (hasPre path c.BasePath || path == "") = true →
      basicAuthValidator c username password path =
        realmCheck c.AuthMethodAPI c.AuthUsersAPI username password) ∧
    (hasPre path c.BasePathAdmin = false →
      (hasPre path c.BasePath || path == "") = false →
      basicAuthValidator c username password path = false) := by
  constructor
  · intro h1
    simp [basicAuthValidator, realmCheck, h1]
  constructor
  · intro h1 h2
    simp [basicAuthValidator, realmCheck, h1, h2]
  · intro h1 h2
    simp [basicAuthValidator, realmCheck, h1, h2]

theorem C5_amended_realm_selection_witness :
    basicAuthValidator c5Config "username1" "password1" "/admin/add_domain" =
      realmCheck c5Config.AuthMethodAdmin c5Config.AuthUsersAdmin
        "username1" "password1" ∧
    basicAuthValidator c5Config "u" "p" "/api/query/x.com" =
      realmCheck c5Config.AuthMethodAPI c5Config.AuthUsersAPI "u" "p" ∧
    basicAuthValidator c5Config "u" "p" "/other" = false :=
  ⟨(C5_amended_realm_selection c5Config "username1" "password1" "/admin/add_domain"
      (by decide)).1 (by decide),
   (C5_amended_realm_selection c5Config "u" "p" "/api/query/x.com" (by decide)).2.1
      (by decide) (by decide),
   (C5_amended_realm_selection c5Config "u" "p" "/other" (by decide)).2.2 (by decide)
      (by decide)⟩

/-- C6: realm isolation — on an admin-governed path with the admin realm
credential-checked, a username/password pair present in the query realm's
mapping but not in the admin realm's mapping is rejected with 401; on
every path not governed by the admin realm, with the query realm
credential-checked, a pair present only in the admin realm's mapping is
likewise rejected with 401. -/
theorem C6_realm_isolation (c : Config) (username password path : String) :
    (hasPre path c.BasePathAdmin = true →
      c.AuthMethodAdmin ≠ "none" →
      credsMatch c.AuthUsersAPI username password = true →
      credsMatch c.AuthUsersAdmin username password = false →
      authReject? c username password path = some 401) ∧
    (hasPre path c.BasePathAdmin = false →
      c.AuthMethodAPI ≠ "none" →
      credsMatch c.AuthUsersAdmin username password = true →
      credsMatch c.AuthUsersAPI username password = false →
      authReject? c username password path = some 401) := by
  constructor
  · intro h1 hm _ hn
    simp [authReject?, basicAuthValidator, h1, hm, hn]
  · intro h1 hm _ hn
    by_cases h2 : (hasPre path c.BasePath || path == "") = true
    · simp [authReject?, basicAuthValidator, h1, h2, hm, hn]
    · simp [authReject?, basicAuthValidator, h1, h2]

theorem C6_realm_isolation_witness :
    authReject? c6Config "queryuser" "querypass" "/admin/add_domain" = some 401 ∧
    authReject? c6Config "adminuser" "adminpass" "/query/x.com" = some 401 :=
  ⟨(C6_realm_isolation c6Config "queryuser" "querypass" "/admin/add_domain").1
      (by decide) (by decide) (by decide) (by decide),
   (C6_realm_isolation c6Config "adminuser" "adminpass" "/query/x.com").2
      (by decide) (by decide) (by decide) (by decide)⟩

end Nodzilla
